import Mathlib

set_option maxRecDepth 1000000

/-!
Shallow embedding of `src/torch_tvm/operators.cpp`: the operator-translation
engine that lowers PyTorch JIT graph nodes to TVM Relay expressions.

Modelling conventions:
* Relay expressions (`tvm::relay::Expr`) become the inductive `Expr`.
  A `ConstantNode` carries its `is_scalar()` flag and the raw 64-bit pattern
  of its first data slot (the code reads that slot reinterpreted as
  `uint64_t`, `int`, `bool` or `float`); typed 32-bit or 8-bit scalar stores
  occupy the low bits of the slot with the remaining bits zero.
* Fallible C++ code becomes `Except TransErr`.  `TORCH_INTERNAL_ASSERT`
  failures and undefined behaviour on the internal-consistency paths
  (dereferencing the null result of a failed `as<...>()` cast, out-of-range
  indexing) are `TransErr.fatal`; `TORCH_CHECK` failures (recoverable
  `c10::Error`) are `TransErr.reported`.
* `float` reads are decoded from the IEEE-754 binary32 bit pattern into an
  exact value (`F32Val`): a dyadic rational, an infinity, or NaN.
* The process-wide operator map is the registration table of the single
  `RegisterTVMOperator reg({...})` call, in source order; the schedule map
  and the Relay global registry become explicit state (`ScheduleState`).
-/

/-- Exact value of an IEEE-754 binary32 datum: a (dyadic) rational for finite
values, or one of the non-finite classes. -/
inductive F32Val where
  | finite (q : ℚ)
  | inf (neg : Bool)
  | nan
deriving DecidableEq

/-- Decode the low 32 bits of a raw pattern as an IEEE-754 binary32 value.
For a finite datum with sign `s`, biased exponent `e` and mantissa field `m`
the value is `(-1)^s * (2^23 + m) * 2^(e-150)` (normal) or
`(-1)^s * m * 2^(-149)` (subnormal). -/
def decodeF32 (b : Nat) : F32Val :=
  let s := b / 2 ^ 31 % 2
  let e := b / 2 ^ 23 % 2 ^ 8
  let m := b % 2 ^ 23
  if e = 255 then
    if m = 0 then .inf (s = 1) else .nan
  else
    let mag : ℚ := Rat.divInt ((if e = 0 then m * 2 else (2 ^ 23 + m) * 2 ^ e : ℕ) : ℤ) (2 ^ 150)
    .finite (if s = 1 then -mag else mag)

/-- C comparison `d < bound` of a float against a finite constant:
false for NaN, sign-determined for infinities. -/
def f32ltQ : F32Val → ℚ → Bool
  | .finite q, bound => decide (q < bound)
  | .inf neg, _ => neg
  | .nan, _ => false

/-- C comparison `d > bound` of a float against a finite constant. -/
def f32gtQ : F32Val → ℚ → Bool
  | .finite q, bound => decide (bound < q)
  | .inf neg, _ => !neg
  | .nan, _ => false

/-- Reinterpret the low 32 bits of a raw data slot as a two's-complement
`int` (the `static_cast<int*>(c->data->data)[0]` read). -/
def intView (bits : Nat) : Int :=
  let u : Nat := bits % 2 ^ 32
  if u < 2 ^ 31 then (u : Int) else (u : Int) - 2 ^ 32

/-- Reinterpret the low byte of a raw data slot as a C++ `bool`
(the `static_cast<bool*>(c->data->data)[0]` read): nonzero is `true`. -/
def boolView (bits : Nat) : Bool :=
  decide (bits % 2 ^ 8 ≠ 0)

/-- Attribute records attached to Relay call nodes by `operators.cpp`
(`Conv2DAttrs`, `BiasAddAttrs`, `BatchNormAttrs`, pooling attrs,
`ReshapeAttrs`, `DenseAttrs`).  `Attrs.none` is the empty `tvm::Attrs()`. -/
inductive Attrs where
  | none
  | conv2d (groups : Int) (dataLayout kernelLayout : String)
      (kernelSize : Option (List Int)) (strides padding dilation : List Int)
  | biasAdd (axis : Int)
  | batchNorm (epsilon : F32Val) (axis : Int) (scale center : Bool)
  | avgPool2d (poolSize strides padding : List Int) (layout : String)
      (ceilMode countIncludePad : Bool)
  | maxPool2d (poolSize strides padding : List Int) (layout : String)
      (ceilMode : Bool)
  | adaptivePool2d (outputSize : List Int) (layout : String)
  | reshape (newshape : List Int) (reverse : Bool)
  | dense
deriving DecidableEq

/-- Relay expressions (`tvm::relay::Expr`) as built and inspected by
`operators.cpp`.  A constant carries its `is_scalar()` flag and the raw
64-bit pattern of its first data slot; a variable carries its name hint and,
when its `type_annotation` is a `TensorTypeNode`, that type's shape. -/
inductive Expr where
  | constant (isScalar : Bool) (bits : Nat)
  | var (name : String) (typeAnn : Option (List Int))
  | call (op : String) (args : List Expr) (attrs : Attrs)
  | tuple (fields : List Expr)
  | tupleGetItem (t : Expr) (idx : Nat)

/-- Embeds `isConstant`: the `e.as<ConstantNode>()` cast succeeds. -/
def isConstant (e : Expr) : Bool :=
  match e with
  | .constant _ _ => true
  | _ => false

/-- Embeds `getNoneSentinel`: the reserved 64-bit pattern standing for "None". -/
def getNoneSentinel : Nat := 0xe4fa3adecabcf036

/-- Embeds `relayIsNone`: false for non-constants and non-scalar constants,
otherwise compare the raw 64-bit slot against the sentinel. -/
def relayIsNone (e : Expr) : Bool :=
  match e with
  | .constant isScalar bits => isScalar && decide (bits = getNoneSentinel)
  | _ => false

/-- Embeds `relayToConstant<int>`: `TORCH_INTERNAL_ASSERT`s a scalar constant
(`none` models the fatal path), then reads the slot as `int`. -/
def relayToConstantInt (e : Expr) : Option Int :=
  match e with
  | .constant true bits => some (intView bits)
  | _ => none

/-- Embeds `relayToConstant<bool>`: scalar-constant assertion, then a `bool` read. -/
def relayToConstantBool (e : Expr) : Option Bool :=
  match e with
  | .constant true bits => some (boolView bits)
  | _ => none

/-- Embeds `relayToConstant<float>`: scalar-constant assertion, then a binary32
read decoded to its exact value. -/
def relayToConstantFloat (e : Expr) : Option F32Val :=
  match e with
  | .constant true bits => some (decodeF32 bits)
  | _ => none

/-- Embeds `relayToArray`: casts to a `TupleNode` and reads every field through
`relayToConstant<int>`.  The source performs no null check on the cast, so a
non-tuple argument dereferences a null pointer; that path (and any
non-scalar-constant field) is the `none` branch of this total embedding. -/
def relayToArray (e : Expr) : Option (List Int) :=
  match e with
  | .tuple fields => fields.mapM relayToConstantInt
  | _ => none

/-- Error classes of the translation engine: `fatal` for
`TORCH_INTERNAL_ASSERT` / undefined behaviour on internal-consistency
paths, `reported` for recoverable `TORCH_CHECK` failures. -/
inductive TransErr where
  | fatal
  | reported
deriving DecidableEq

/-- A source-graph node as the rules see it: its operator kind
(`node->kind()` qualified string), the statically known dimension of its
first input when that input's type is a `DimensionedTensorType`, and its
output count. -/
structure Node where
  kind : String
  input0Dim : Option Int
  outputsCount : Nat
deriving DecidableEq

/-- Indexing `inputs[i]` on a `tvm::Array`: out-of-range access is fatal. -/
def getInput (inputs : List Expr) (i : Nat) : Except TransErr Expr :=
  match inputs.get? i with
  | some e => .ok e
  | none => .error .fatal

/-- Lift a `relayToConstant*` / `relayToArray` read; the failure path is a
fatal internal-consistency abort. -/
def liftFatal {α : Type} (o : Option α) : Except TransErr α :=
  match o with
  | some a => .ok a
  | none => .error .fatal

/-- Embeds `TORCH_INTERNAL_ASSERT cond`. -/
def internalAssert (b : Bool) : Except TransErr Unit :=
  if b then .ok () else .error .fatal

/-- Embeds `TORCH_CHECK cond`: a reported, recoverable failure. -/
def torchCheck (b : Bool) : Except TransErr Unit :=
  if b then .ok () else .error .reported

/-- A registered translation rule (`TVMOpFunctor`). -/
def OpRule : Type := Node → List Expr → Except TransErr Expr

/-- Rule shared by the `aten::add` and `aten::add_` registrations (the two
lambdas in the source are textually identical): assert exactly three
inputs, assert the third is a scalar constant whose `int` view is `1`
(dereferencing the unchecked `as<ConstantNode>()` result of a non-constant
is the fatal path), and emit `add` on the first two inputs. -/
def atenAddRule : OpRule := fun _node inputs => do
  internalAssert (inputs.length = 3)
  let i0 ← getInput inputs 0
  let i1 ← getInput inputs 1
  let i2 ← getInput inputs 2
  match i2 with
  | .constant isScalar bits =>
      internalAssert (isScalar && decide (intView bits = 1))
      pure (Expr.call "add" [i0, i1] .none)
  | _ => .error .fatal

/-- IEEE-754 binary32 bit pattern of the C literal `1337e10` (= 1.337e13)
rounded to float: sign 0, biased exponent 170, mantissa field 4362018. -/
def bits1337e10 : Nat := 0x55428F22

/-- The `aten::_convolution` rule. -/
def atenConvolutionRule : OpRule := fun _node inputs => do
  let i6 ← getInput inputs 6
  let isTranspose ← liftFatal (relayToConstantBool i6)
  let op := if isTranspose then "nn.conv2d_transpose" else "nn.conv2d"
  let i0 ← getInput inputs 0
  let i1 ← getInput inputs 1
  let i8 ← getInput inputs 8
  let groups ← liftFatal (relayToConstantInt i8)
  let kernelSize ← (match i1 with
    | .var _ ann =>
        (match ann with
         | some shape =>
             -- `shape[2]`, `shape[3]` without a bound check: fatal if absent
             (match shape.get? 2, shape.get? 3 with
              | some s2, some s3 => Except.ok (some [s2, s3])
              | _, _ => Except.error TransErr.fatal)
         | none => Except.error TransErr.fatal)  -- TORCH_INTERNAL_ASSERT(w_t)
    | _ => Except.ok Option.none)
  let i3 ← getInput inputs 3
  let strides ← liftFatal (relayToArray i3)
  let i4 ← getInput inputs 4
  let padding ← liftFatal (relayToArray i4)
  let i5 ← getInput inputs 5
  let dilation ← liftFatal (relayToArray i5)
  let out := Expr.call op [i0, i1]
    (.conv2d groups "NCHW" "OIHW" kernelSize strides padding dilation)
  let i2 ← getInput inputs 2
  if isConstant i2 then
    pure out
  else
    pure (Expr.call "nn.bias_add" [out, i2] (.biasAdd 1))

/-- The `aten::batch_norm` rule. -/
def atenBatchNormRule : OpRule := fun node inputs => do
  torchCheck (inputs.length = 9)
  let i5 ← getInput inputs 5
  let training ← liftFatal (relayToConstantBool i5)
  torchCheck (training = false)
  let i7 ← getInput inputs 7
  let eps ← liftFatal (relayToConstantFloat i7)
  -- scalar float32 constant filled with 1337e10, "large to induce errors"
  let v := Expr.constant true bits1337e10
  let i3 ← getInput inputs 3
  let weightDefault := Expr.call "broadcast_to_like" [v, i3] .none
  let biasDefault := Expr.call "broadcast_to_like" [v, i3] .none
  let i1 ← getInput inputs 1
  let i2 ← getInput inputs 2
  let scale := !(relayIsNone i1)
  let weight := if relayIsNone i1 then weightDefault else i1
  let center := !(relayIsNone i2)
  let bias := if relayIsNone i2 then biasDefault else i2
  let i0 ← getInput inputs 0
  let i4 ← getInput inputs 4
  let out := Expr.call "nn.batch_norm" [i0, weight, bias, i3, i4]
    (.batchNorm eps 1 scale center)
  internalAssert (node.outputsCount = 1)
  if node.outputsCount = 2 then
    pure out
  else
    pure (Expr.tupleGetItem out 0)

/-- Rule shared by the `aten::relu_` and `aten::relu` registrations (the two
lambdas are textually identical; the non-in-place one additionally carries
the exposed name "relu", recorded in the registration table). -/
def atenReluRule : OpRule := fun _node inputs =>
  .ok (.call "nn.relu" inputs .none)

/-- The tolerance `1e-7` of the `aten::threshold_` rule, as an exact
rational.  (The C literal is the nearest double to `1e-7`; no binary32
value lies between that double and `1/10^7`, so the comparisons agree on
every float argument.) -/
def thresholdTol : ℚ := Rat.divInt 1 (10 ^ 7)

/-- The `aten::threshold_` rule: only threshold ≈ 0 and value ≈ 0 (within
±1e-7) are accepted; the result is `nn.relu` of the first input. -/
def atenThresholdRule : OpRule := fun _node inputs => do
  let i0 ← getInput inputs 0
  torchCheck (!(relayIsNone i0))
  let i1 ← getInput inputs 1
  torchCheck (!(relayIsNone i1))
  let i2 ← getInput inputs 2
  torchCheck (!(relayIsNone i2))
  let d ← liftFatal (relayToConstantFloat i1)
  torchCheck (f32ltQ d thresholdTol)
  torchCheck (f32gtQ d (-thresholdTol))
  let d2 ← liftFatal (relayToConstantFloat i2)
  torchCheck (f32ltQ d2 thresholdTol)
  torchCheck (f32gtQ d2 (-thresholdTol))
  pure (Expr.call "nn.relu" [i0] .none)

/-- The `aten::mul` rule. -/
def atenMulRule : OpRule := fun _node inputs =>
  .ok (.call "multiply" inputs .none)

/-- The `aten::avg_pool2d` rule: strides default to the pool size when the
decoded stride array is empty. -/
def atenAvgPool2dRule : OpRule := fun _node inputs => do
  let i1 ← getInput inputs 1
  let poolSize ← liftFatal (relayToArray i1)
  let i2 ← getInput inputs 2
  let strides ← liftFatal (relayToArray i2)
  let strides' := if strides.length = 0 then poolSize else strides
  let i3 ← getInput inputs 3
  let padding ← liftFatal (relayToArray i3)
  let i4 ← getInput inputs 4
  let ceilMode ← liftFatal (relayToConstantBool i4)
  let i5 ← getInput inputs 5
  let countIncludePad ← liftFatal (relayToConstantBool i5)
  let i0 ← getInput inputs 0
  pure (Expr.call "nn.avg_pool2d" [i0]
    (.avgPool2d poolSize strides' padding "NCHW" ceilMode countIncludePad))

/-- The `aten::adaptive_avg_pool2d` rule. -/
def atenAdaptiveAvgPool2dRule : OpRule := fun _node inputs => do
  let i1 ← getInput inputs 1
  let outputSize ← liftFatal (relayToArray i1)
  let i0 ← getInput inputs 0
  pure (Expr.call "contrib.adaptive_avg_pool2d" [i0]
    (.adaptivePool2d outputSize "NCHW"))

/-- The `aten::max_pool2d` rule: same stride-default policy as average
pooling; the dilation input (index 4) is accepted but not forwarded. -/
def atenMaxPool2dRule : OpRule := fun _node inputs => do
  let i1 ← getInput inputs 1
  let poolSize ← liftFatal (relayToArray i1)
  let i2 ← getInput inputs 2
  let strides ← liftFatal (relayToArray i2)
  let strides' := if strides.length = 0 then poolSize else strides
  let i3 ← getInput inputs 3
  let padding ← liftFatal (relayToArray i3)
  let i5 ← getInput inputs 5
  let ceilMode ← liftFatal (relayToConstantBool i5)
  let i0 ← getInput inputs 0
  pure (Expr.call "nn.max_pool2d" [i0]
    (.maxPool2d poolSize strides' padding "NCHW" ceilMode))

/-- The `aten::reshape` rule.  The leading-dimension warning is a
diagnostic on `stderr` with no effect on the produced expression, so it
does not appear in the embedding. -/
def atenReshapeRule : OpRule := fun _node inputs => do
  let i1 ← getInput inputs 1
  let newshape ← liftFatal (relayToArray i1)
  internalAssert (decide (0 < newshape.length))
  let i0 ← getInput inputs 0
  pure (Expr.call "reshape" [i0] (.reshape newshape false))

/-- The `aten::linear` rule: a statically known first-input rank other than
2 is a reported error; bias presence is decided by the none sentinel. -/
def atenLinearRule : OpRule := fun node inputs => do
  (match node.input0Dim with
   | some d => torchCheck (decide (d = 2))
   | none => Except.ok ())
  let i0 ← getInput inputs 0
  let i1 ← getInput inputs 1
  let out := Expr.call "nn.dense" [i0, i1] .dense
  let i2 ← getInput inputs 2
  if relayIsNone i2 then
    pure out
  else
    pure (Expr.call "nn.bias_add" [out, i2] (.biasAdd 1))

/-- The process-wide operator map after the single static
`RegisterTVMOperator reg({...})` call, in registration order (the
constructor writes `getTVMOperatorMap()[op.sym] = op.fn` for each entry;
all keys are distinct, so list lookup agrees with the hash map). -/
def tvmOperatorMap : List (String × OpRule) :=
  [("aten::add", atenAddRule),
   ("aten::add_", atenAddRule),
   ("aten::_convolution", atenConvolutionRule),
   ("aten::batch_norm", atenBatchNormRule),
   ("aten::relu_", atenReluRule),
   ("aten::relu", atenReluRule),
   ("aten::threshold_", atenThresholdRule),
   ("aten::mul", atenMulRule),
   ("aten::avg_pool2d", atenAvgPool2dRule),
   ("aten::adaptive_avg_pool2d", atenAdaptiveAvgPool2dRule),
   ("aten::max_pool2d", atenMaxPool2dRule),
   ("aten::reshape", atenReshapeRule),
   ("aten::linear", atenLinearRule)]

/-- Embeds `isSupported`: membership of the node's kind in the operator map. -/
def isSupported (node : Node) : Bool :=
  (tvmOperatorMap.lookup node.kind).isSome

/-- Embeds `getOperator`: assert `isSupported(node)` fatally, then invoke
the registered rule on the node and the given inputs. -/
def getOperator (node : Node) (inputs : List Expr) : Except TransErr Expr :=
  match tvmOperatorMap.lookup node.kind with
  | some rule => rule node inputs
  | none => .error .fatal

/-- An installation performed through the Relay global registry
(`(*reg)(name, "FTVMSchedule", *sched, 10)`). -/
structure Install where
  name : String
  attrKey : String
  strategy : Nat
  plevel : Nat
deriving DecidableEq

/-- State touched by the schedule gate: the process-wide schedule map
(each `TVMScheduleFunctor` modelled by the value it returns — `none` for
the null-returning no-op) and the Relay registry's installation log. -/
structure ScheduleState where
  schedMap : List (String × Option Nat)
  registry : List Install
deriving DecidableEq

/-- Assignment via `operator[]` on an existing key of the schedule map. -/
def updateSched (m : List (String × Option Nat)) (name : String)
    (v : Option Nat) : List (String × Option Nat) :=
  m.map (fun p => if p.1 = name then (p.1, v) else p)

/-- Embeds `registerSchedule`: fatal-assert the name is registered; invoke the
stored functor; on a non-null strategy, install it (attribute
`"FTVMSchedule"`, priority 10) and replace the stored functor with the
null-returning no-op.  (The `Registry::Get("relay.op._Register")` lookup is
assumed present, as its assertion only guards the external registry.) -/
def registerSchedule (name : String) (st : ScheduleState) :
    Except TransErr ScheduleState :=
  match st.schedMap.lookup name with
  | none => .error .fatal
  | some funct =>
      match funct with
      | some sched =>
          .ok ⟨updateSched st.schedMap name none,
               st.registry ++ [⟨name, "FTVMSchedule", sched, 10⟩]⟩
      | none => .ok st

/-- Modelled from the spec: how the (external) lowering code encodes a real
scalar `bool` argument as a constant — a one-byte store into the constant's
data slot, remaining bits of the slot zero. -/
def mkBoolConst (b : Bool) : Expr :=
  .constant true (if b then 1 else 0)

/-- Modelled from the spec: encoding of a real scalar 32-bit `int` argument
constant — a two's-complement 32-bit store, upper slot bits zero. -/
def mkIntConst (i : Int) : Expr :=
  .constant true (i % 2 ^ 32).toNat

/-- Modelled from the spec: encoding of a real scalar `float` argument
constant from its binary32 pattern — a 32-bit store, upper slot bits
zero. -/
def mkFloatConst (bits32 : Nat) : Expr :=
  .constant true (bits32 % 2 ^ 32)

/-- The scalar constant carrying the none sentinel. -/
def noneConst : Expr := .constant true getNoneSentinel

/-- A concrete `aten::batch_norm` node with one output. -/
def bnNodeC : Node := ⟨"aten::batch_norm", Option.none, 1⟩

/-- Concrete `aten::batch_norm` inputs: data `x`, scale and shift absent
(sentinel), running mean `running_mean`, running variance `running_var`,
training `false`, momentum, epsilon `0.0f`, cudnn flag. -/
def bnInputsC : List Expr :=
  [.var "x" Option.none, noneConst, noneConst,
   .var "running_mean" Option.none, .var "running_var" Option.none,
   mkBoolConst false, .var "momentum" Option.none,
   .constant true 0, .var "cudnn" Option.none]

/-- The expression `atenBatchNormRule bnNodeC bnInputsC` actually emits. -/
def bnResultC : Expr :=
  .tupleGetItem
    (.call "nn.batch_norm"
      [.var "x" Option.none,
       .call "broadcast_to_like"
         [.constant true bits1337e10, .var "running_mean" Option.none] .none,
       .call "broadcast_to_like"
         [.constant true bits1337e10, .var "running_mean" Option.none] .none,
       .var "running_mean" Option.none, .var "running_var" Option.none]
      (.batchNorm (.finite 0) 1 false false)) 0

/-- Second argument (the weight) of the `nn.batch_norm` call under the
tuple projection, when the expression has that shape. -/
def bnWeightArg (e : Expr) : Option Expr :=
  match e with
  | .tupleGetItem (.call _ args _) _ => args.get? 1
  | _ => Option.none

/-- Fixture: a plain variable input. -/
def xVar : Expr := .var "x" Option.none

/-- Fixture: a 2x2 size tuple. -/
def tup22 : Expr := .tuple [.constant true 2, .constant true 2]

/-- Fixture: the empty tuple ("use default"). -/
def tupEmpty : Expr := .tuple []

/-! ### Decomposition lemmas for the `Except` plumbing -/

theorem bind_ok_iff {α β : Type} (x : Except TransErr α)
    (f : α → Except TransErr β) (r : β) :
    (x >>= f) = Except.ok r ↔ ∃ a, x = Except.ok a ∧ f a = Except.ok r := by
  cases x with
  | ok a =>
      constructor
      · intro h
        exact ⟨a, rfl, h⟩
      · rintro ⟨b, hb, hf⟩
        cases hb
        exact hf
  | error e =>
      constructor
      · intro h
        exact absurd h (by simp [Bind.bind, Except.bind])
      · rintro ⟨b, hb, _⟩
        cases hb

theorem getInput_ok_iff (inputs : List Expr) (i : Nat) (e : Expr) :
    getInput inputs i = Except.ok e ↔ inputs.get? i = some e := by
  unfold getInput
  cases h : inputs.get? i <;> simp

theorem liftFatal_ok_iff {α : Type} (o : Option α) (a : α) :
    liftFatal o = Except.ok a ↔ o = some a := by
  unfold liftFatal
  cases o <;> simp

theorem torchCheck_ok_iff (b : Bool) (u : Unit) :
    torchCheck b = Except.ok u ↔ b = true := by
  unfold torchCheck
  cases b <;> simp

theorem internalAssert_ok_iff (b : Bool) (u : Unit) :
    internalAssert b = Except.ok u ↔ b = true := by
  unfold internalAssert
  cases b <;> simp

theorem lookup_updateSched (m : List (String × Option Nat)) (name : String)
    (v : Option Nat) :
    (updateSched m name v).lookup name = (m.lookup name).map (fun _ => v) := by
  induction m with
  | nil => rfl
  | cons p ps ih =>
      obtain ⟨k, w⟩ := p
      simp only [updateSched, List.map_cons]
      by_cases h : k = name
      · subst h
        rw [show (if (k, w).1 = k then ((k, w).1, v) else (k, w)) = (k, v) from
          if_pos rfl]
        simp [List.lookup]
      · have h' : ¬((k, w).1 = name) := by simpa using h
        rw [if_neg h']
        have hbeq : (name == k) = false :=
          beq_eq_false_iff_ne.mpr (fun hn => h hn.symm)
        simp only [List.lookup, hbeq]
        exact ih

theorem thresholdTol_eq : thresholdTol = 1 / 10 ^ 7 := by
  unfold thresholdTol
  rw [Rat.divInt_eq_div]
  norm_num

/-! ### C2 -/

/-- C2: `relayIsNone e` is true exactly when `e` is a scalar
constant-value node whose raw 64-bit slot equals the sentinel
`0xe4fa3adecabcf036`; it is false on every non-constant expression and
every non-scalar constant, and no encoded real scalar of a supported
numeric type (`bool`, 32-bit `int`, binary32 `float`) collides with the
sentinel. -/
theorem relayIsNone_iff_sentinel :
    (∀ e : Expr, relayIsNone e = true ↔ e = Expr.constant true getNoneSentinel)
    ∧ (∀ b : Bool, relayIsNone (mkBoolConst b) = false)
    ∧ (∀ i : Int, relayIsNone (mkIntConst i) = false)
    ∧ (∀ bits32 : Nat, relayIsNone (mkFloatConst bits32) = false) := by
  refine ⟨?_, ?_, ?_, ?_⟩
  · intro e
    cases e with
    | constant isScalar bits =>
        simp only [relayIsNone, Bool.and_eq_true, decide_eq_true_eq,
          Expr.constant.injEq]
    | var n a => simp [relayIsNone]
    | call o args at_ => simp [relayIsNone]
    | tuple fs => simp [relayIsNone]
    | tupleGetItem t i => simp [relayIsNone]
  · intro b
    cases b <;> decide
  · intro i
    have hlt : (i % (2 ^ 32 : Int)).toNat < 2 ^ 32 := by
      have h2 := Int.emod_lt_of_pos i (by norm_num : (0:ℤ) < 2 ^ 32)
      have h3 := Int.emod_nonneg i (by norm_num : (2 ^ 32 : ℤ) ≠ 0)
      omega
    simp only [relayIsNone, mkIntConst, getNoneSentinel, Bool.true_and,
      decide_eq_false_iff_not]
    omega
  · intro bits32
    have hlt : bits32 % 2 ^ 32 < 2 ^ 32 := Nat.mod_lt _ (by norm_num)
    simp only [relayIsNone, mkFloatConst, getNoneSentinel, Bool.true_and,
      decide_eq_false_iff_not]
    omega

theorem relayIsNone_iff_sentinel_witness :
    relayIsNone (Expr.constant true getNoneSentinel) = true :=
  (relayIsNone_iff_sentinel.1 (Expr.constant true getNoneSentinel)).mpr rfl

/-! ### C10 -/

/-- C10: `relayToArray` is well-defined only under the precondition that
its argument is a tuple all of whose fields are scalar constants; there it
returns one `int`-width element per field, preserving order (an empty
tuple yields the empty array).  Any non-tuple argument reaches the error
branch of the total embedding — unlike `relayToConstant`, which asserts
and is defined exactly on scalar constants. -/
theorem relayToArray_spec :
    (∀ fields : List Expr, (∀ f ∈ fields, ∃ b, f = Expr.constant true b) →
      ∃ vals : List Int, relayToArray (Expr.tuple fields) = some vals ∧
        vals.length = fields.length ∧
        ∀ (i : Nat) (b : Nat), fields.get? i = some (Expr.constant true b) →
          vals.get? i = some (intView b))
    ∧ relayToArray (Expr.tuple []) = some []
    ∧ (∀ e : Expr, (∀ fields, e ≠ Expr.tuple fields) → relayToArray e = none)
    ∧ (∀ e : Expr,
        (relayToConstantInt e).isSome ↔ ∃ b, e = Expr.constant true b) := by
  refine ⟨?_, rfl, ?_, ?_⟩
  · intro fields
    induction fields with
    | nil =>
        intro _
        refine ⟨[], rfl, rfl, ?_⟩
        intro i b h
        simp at h
    | cons f fs ih =>
        intro h
        obtain ⟨b, rfl⟩ := h f (List.mem_cons_self f fs)
        obtain ⟨vals, hv, hlen, hidx⟩ :=
          ih (fun g hg => h g (List.mem_cons_of_mem _ hg))
        refine ⟨intView b :: vals, ?_, by simp [hlen], ?_⟩
        · simp only [relayToArray] at hv ⊢
          rw [List.mapM_cons, hv]
          rfl
        · intro i b' hi
          cases i with
          | zero =>
              simp only [List.get?] at hi
              cases hi
              rfl
          | succ j => exact hidx j b' hi
  · intro e h
    cases e with
    | tuple fs => exact absurd rfl (h fs)
    | constant s b => rfl
    | var n a => rfl
    | call o args at_ => rfl
    | tupleGetItem t i => rfl
  · intro e
    cases e with
    | constant isScalar bits =>
        cases isScalar <;> simp [relayToConstantInt]
    | var n a => simp [relayToConstantInt]
    | call o args at_ => simp [relayToConstantInt]
    | tuple fs => simp [relayToConstantInt]
    | tupleGetItem t i => simp [relayToConstantInt]

theorem relayToArray_spec_witness :
    ∃ vals : List Int,
      relayToArray (Expr.tuple [Expr.constant true 3, Expr.constant true 3]) =
        some vals ∧ vals.length = 2 ∧
      relayToArray (Expr.var "x" Option.none) = none := by
  obtain ⟨vals, hv, hlen, _⟩ :=
    relayToArray_spec.1 [Expr.constant true 3, Expr.constant true 3]
      (by intro f hf
          simp only [List.mem_cons, List.not_mem_nil, or_false] at hf
          rcases hf with h | h <;> exact ⟨3, h⟩)
  exact ⟨vals, hv, hlen, relayToArray_spec.2.2.1 _ (by intro fs h; cases h)⟩

/-! ### C5 -/

/-- C5: `registerSchedule` fatal-asserts that the name is registered in the
schedule map; when the stored constructor returns a non-null strategy it
installs it into the Relay per-operator registry (attribute
`"FTVMSchedule"`, priority 10) and replaces the stored constructor by the
null-returning one, so a second `registerSchedule` of the same name
performs no installation. -/
theorem registerSchedule_spec (name : String) (st : ScheduleState) :
    (st.schedMap.lookup name = none → registerSchedule name st = .error .fatal)
    ∧ (∀ s, st.schedMap.lookup name = some (some s) →
        ∃ st₁, registerSchedule name st = .ok st₁ ∧
          st₁.registry = st.registry ++ [⟨name, "FTVMSchedule", s, 10⟩] ∧
          st₁.schedMap.lookup name = some none)
    ∧ (∀ st₁, registerSchedule name st = .ok st₁ →
        ∃ st₂, registerSchedule name st₁ = .ok st₂ ∧
          st₂.registry = st₁.registry) := by
  refine ⟨?_, ?_, ?_⟩
  · intro h
    unfold registerSchedule
    rw [h]
  · intro s h
    refine ⟨⟨updateSched st.schedMap name Option.none,
             st.registry ++ [⟨name, "FTVMSchedule", s, 10⟩]⟩, ?_, rfl, ?_⟩
    · unfold registerSchedule
      rw [h]
    · simp only [lookup_updateSched, h]
      rfl
  · intro st₁ h
    unfold registerSchedule at h
    cases hl : st.schedMap.lookup name with
    | none => rw [hl] at h; cases h
    | some funct =>
        rw [hl] at h
        cases funct with
        | some s =>
            simp only [Except.ok.injEq] at h
            subst h
            have hl₁ : (updateSched st.schedMap name Option.none).lookup name =
                some Option.none := by
              simp only [lookup_updateSched, hl]
              rfl
            refine ⟨_, ?_, rfl⟩
            unfold registerSchedule
            simp only [hl₁]
        | none =>
            simp only [Except.ok.injEq] at h
            subst h
            refine ⟨st, ?_, rfl⟩
            unfold registerSchedule
            rw [hl]

theorem registerSchedule_spec_witness :
    ∃ st₂, registerSchedule "nn.dense"
        ⟨[("nn.dense", Option.none)],
         [⟨"nn.dense", "FTVMSchedule", 7, 10⟩]⟩ = .ok st₂ ∧
      st₂.registry = [⟨"nn.dense", "FTVMSchedule", 7, 10⟩] :=
  (registerSchedule_spec "nn.dense" ⟨[("nn.dense", some 7)], []⟩).2.2
    ⟨[("nn.dense", Option.none)], [⟨"nn.dense", "FTVMSchedule", 7, 10⟩]⟩ rfl

/-! ### C7 -/

/-- C7: the rule registered for both `aten::add` and `aten::add_` requires
exactly three inputs (fatal otherwise), fatal-asserts that the third
(scale) input is a scalar constant whose `int` view equals 1, and on
success emits a single binary `add` call on the first two inputs with the
scale dropped; a scale constant of 2, and any non-constant scale, are
fatal internal-consistency failures, not reported errors. -/
theorem addRule_spec :
    tvmOperatorMap.lookup "aten::add" = some atenAddRule
    ∧ tvmOperatorMap.lookup "aten::add_" = some atenAddRule
    ∧ (∀ node inputs, inputs.length ≠ 3 →
        atenAddRule node inputs = .error .fatal)
    ∧ (∀ node i0 i1 bits, intView bits = 1 →
        atenAddRule node [i0, i1, Expr.constant true bits] =
          .ok (.call "add" [i0, i1] .none))
    ∧ (∀ node i0 i1,
        atenAddRule node [i0, i1, Expr.constant true 2] = .error .fatal)
    ∧ (∀ node i0 i1 i2, isConstant i2 = false →
        atenAddRule node [i0, i1, i2] = .error .fatal) := by
  refine ⟨rfl, rfl, ?_, ?_, ?_, ?_⟩
  · intro node inputs h
    unfold atenAddRule
    have hd : (decide (inputs.length = 3)) = false := by
      simp [h]
    simp [internalAssert, hd, Bind.bind, Except.bind]
  · intro node i0 i1 bits h
    unfold atenAddRule
    have hd : (decide (intView bits = 1)) = true := by simp [h]
    simp [internalAssert, getInput, hd, Bind.bind, Except.bind]
    rfl
  · intro node i0 i1
    rfl
  · intro node i0 i1 i2 h
    unfold atenAddRule
    cases i2 with
    | constant s b => simp [isConstant] at h
    | var n a => rfl
    | call o args at_ => rfl
    | tuple fs => rfl
    | tupleGetItem t i => rfl

theorem addRule_spec_witness :
    atenAddRule ⟨"aten::add", Option.none, 1⟩
      [Expr.var "x" Option.none, Expr.var "y" Option.none,
       Expr.constant true 1] =
    .ok (.call "add" [Expr.var "x" Option.none, Expr.var "y" Option.none]
      .none) :=
  addRule_spec.2.2.2.1 ⟨"aten::add", Option.none, 1⟩
    (Expr.var "x" Option.none) (Expr.var "y" Option.none) 1 rfl

/-! ### C1 -/

/-- C1: for every identifier in the process-wide operator map,
`isSupported` is true on nodes of that kind; `getOperator` fatal-asserts
support and otherwise returns exactly the registered rule applied to the
node and the given input-expression list; and for every registered
identifier a well-formed node of that kind translates to an expression. -/
theorem getOperator_dispatch :
    (∀ sym, sym ∈ tvmOperatorMap.map Prod.fst →
      ∀ node : Node, node.kind = sym → isSupported node = true)
    ∧ (∀ node inputs, isSupported node = false →
        getOperator node inputs = .error .fatal)
    ∧ (∀ node inputs rule, tvmOperatorMap.lookup node.kind = some rule →
        getOperator node inputs = rule node inputs)
    ∧ (∀ sym, sym ∈ tvmOperatorMap.map Prod.fst →
        ∃ (node : Node) (inputs : List Expr) (e : Expr),
          node.kind = sym ∧ getOperator node inputs = .ok e) := by
  refine ⟨?_, ?_, ?_, ?_⟩
  · intro sym hsym node hkind
    simp only [tvmOperatorMap, List.map_cons, List.map_nil, List.mem_cons,
      List.not_mem_nil, or_false] at hsym
    unfold isSupported
    rcases hsym with h|h|h|h|h|h|h|h|h|h|h|h|h <;> rw [hkind, h] <;> rfl
  · intro node inputs h
    unfold isSupported at h
    unfold getOperator
    cases hl : tvmOperatorMap.lookup node.kind with
    | none => rfl
    | some rule => rw [hl] at h; simp at h
  · intro node inputs rule h
    unfold getOperator
    rw [h]
  · intro sym hsym
    simp only [tvmOperatorMap, List.map_cons, List.map_nil, List.mem_cons,
      List.not_mem_nil, or_false] at hsym
    rcases hsym with h|h|h|h|h|h|h|h|h|h|h|h|h <;> subst h
    · exact ⟨⟨"aten::add", Option.none, 1⟩,
        [xVar, xVar, .constant true 1], _, rfl, rfl⟩
    · exact ⟨⟨"aten::add_", Option.none, 1⟩,
        [xVar, xVar, .constant true 1], _, rfl, rfl⟩
    · exact ⟨⟨"aten::_convolution", Option.none, 1⟩,
        [xVar, .var "w" (some [4, 4, 3, 3]), .constant true 1, tup22,
         tupEmpty, tup22, .constant true 0, xVar, .constant true 1],
        _, rfl, rfl⟩
    · exact ⟨bnNodeC, bnInputsC, _, rfl, rfl⟩
    · exact ⟨⟨"aten::relu_", Option.none, 1⟩, [xVar], _, rfl, rfl⟩
    · exact ⟨⟨"aten::relu", Option.none, 1⟩, [xVar], _, rfl, rfl⟩
    · exact ⟨⟨"aten::threshold_", Option.none, 1⟩,
        [xVar, .constant true 0, .constant true 0], _, rfl, rfl⟩
    · exact ⟨⟨"aten::mul", Option.none, 1⟩, [xVar, xVar], _, rfl, rfl⟩
    · exact ⟨⟨"aten::avg_pool2d", Option.none, 1⟩,
        [xVar, tup22, tupEmpty, tup22, .constant true 0, .constant true 0],
        _, rfl, rfl⟩
    · exact ⟨⟨"aten::adaptive_avg_pool2d", Option.none, 1⟩,
        [xVar, tup22], _, rfl, rfl⟩
    · exact ⟨⟨"aten::max_pool2d", Option.none, 1⟩,
        [xVar, tup22, tupEmpty, tup22, xVar, .constant true 0],
        _, rfl, rfl⟩
    · exact ⟨⟨"aten::reshape", Option.none, 1⟩,
        [xVar, .tuple [.constant true 0xFFFFFFFF]], _, rfl, rfl⟩
    · exact ⟨⟨"aten::linear", Option.none, 1⟩,
        [xVar, .var "w" Option.none, noneConst], _, rfl, rfl⟩

theorem getOperator_dispatch_witness :
    isSupported ⟨"aten::relu", Option.none, 1⟩ = true ∧
    ∃ (node : Node) (inputs : List Expr) (e : Expr),
      node.kind = "aten::relu" ∧ getOperator node inputs = .ok e :=
  ⟨getOperator_dispatch.1 "aten::relu" (by simp [tvmOperatorMap])
      ⟨"aten::relu", Option.none, 1⟩ rfl,
   getOperator_dispatch.2.2.2 "aten::relu" (by simp [tvmOperatorMap])⟩

theorem ok_bind {α β : Type} (a : α) (f : α → Except TransErr β) :
    (Except.ok a >>= f : Except TransErr β) = f a := rfl

/-! ### C6 -/

/-- C6: for both pooling rules, an empty decoded stride tuple makes the
emitted strides attribute equal the decoded pool size, and a non-empty
decoded stride tuple is forwarded unchanged. -/
theorem poolRule_strides_default :
    ∀ (node : Node) (inputs : List Expr) (i1 i2 : Expr) (p s : List Int)
      (result : Expr),
      inputs.get? 1 = some i1 → inputs.get? 2 = some i2 →
      relayToArray i1 = some p → relayToArray i2 = some s →
      (atenAvgPool2dRule node inputs = .ok result →
        ∃ i0 pad cm cip, result = .call "nn.avg_pool2d" [i0]
          (.avgPool2d p (if s.length = 0 then p else s) pad "NCHW" cm cip))
      ∧ (atenMaxPool2dRule node inputs = .ok result →
        ∃ i0 pad cm, result = .call "nn.max_pool2d" [i0]
          (.maxPool2d p (if s.length = 0 then p else s) pad "NCHW" cm)) := by
  intro node inputs i1 i2 p s result h1 h2 hp hs
  constructor
  · intro h
    unfold atenAvgPool2dRule at h
    rw [(getInput_ok_iff inputs 1 i1).mpr h1, ok_bind] at h
    rw [(liftFatal_ok_iff (relayToArray i1) p).mpr hp, ok_bind] at h
    rw [(getInput_ok_iff inputs 2 i2).mpr h2, ok_bind] at h
    rw [(liftFatal_ok_iff (relayToArray i2) s).mpr hs, ok_bind] at h
    rw [bind_ok_iff] at h
    obtain ⟨i3, h3, h⟩ := h
    rw [bind_ok_iff] at h
    obtain ⟨pad, hpad, h⟩ := h
    rw [bind_ok_iff] at h
    obtain ⟨i4, h4, h⟩ := h
    rw [bind_ok_iff] at h
    obtain ⟨cm, hcm, h⟩ := h
    rw [bind_ok_iff] at h
    obtain ⟨i5, h5, h⟩ := h
    rw [bind_ok_iff] at h
    obtain ⟨cip, hcip, h⟩ := h
    rw [bind_ok_iff] at h
    obtain ⟨i0, h0, h⟩ := h
    simp only [pure, Except.pure, Except.ok.injEq] at h
    exact ⟨i0, pad, cm, cip, h.symm⟩
  · intro h
    unfold atenMaxPool2dRule at h
    rw [(getInput_ok_iff inputs 1 i1).mpr h1, ok_bind] at h
    rw [(liftFatal_ok_iff (relayToArray i1) p).mpr hp, ok_bind] at h
    rw [(getInput_ok_iff inputs 2 i2).mpr h2, ok_bind] at h
    rw [(liftFatal_ok_iff (relayToArray i2) s).mpr hs, ok_bind] at h
    rw [bind_ok_iff] at h
    obtain ⟨i3, h3, h⟩ := h
    rw [bind_ok_iff] at h
    obtain ⟨pad, hpad, h⟩ := h
    rw [bind_ok_iff] at h
    obtain ⟨i5, h5, h⟩ := h
    rw [bind_ok_iff] at h
    obtain ⟨cm, hcm, h⟩ := h
    rw [bind_ok_iff] at h
    obtain ⟨i0, h0, h⟩ := h
    simp only [pure, Except.pure, Except.ok.injEq] at h
    exact ⟨i0, pad, cm, h.symm⟩

theorem poolRule_strides_default_witness :
    ∃ i0 pad cm cip,
      Expr.call "nn.avg_pool2d" [xVar]
          (Attrs.avgPool2d [2, 2] [2, 2] [2, 2] "NCHW" false false) =
        Expr.call "nn.avg_pool2d" [i0]
          (Attrs.avgPool2d [2, 2] (if ([] : List Int).length = 0 then [2, 2]
            else []) pad "NCHW" cm cip) :=
  (poolRule_strides_default ⟨"aten::avg_pool2d", Option.none, 1⟩
    [xVar, tup22, tupEmpty, tup22, .constant true 0, .constant true 0]
    tup22 tupEmpty [2, 2] []
    (Expr.call "nn.avg_pool2d" [xVar]
      (Attrs.avgPool2d [2, 2] [2, 2] [2, 2] "NCHW" false false))
    rfl rfl rfl rfl).1 rfl

/-! ### C3 -/

/-- C3: the `aten::_convolution` rule emits `nn.conv2d_transpose` when the
boolean transposed flag (input 6) is true and `nn.conv2d` otherwise; a
compile-time-constant bias input (index 2) stands for "no bias", returning
the convolution call bare, while a non-constant bias wraps the convolution
in an `nn.bias_add` with channel axis 1 whose second argument is the bias
expression. -/
theorem convRule_spec :
    ∀ (node : Node) (inputs : List Expr) (i2 i6 : Expr) (b : Bool)
      (result : Expr),
      inputs.get? 2 = some i2 → inputs.get? 6 = some i6 →
      relayToConstantBool i6 = some b →
      atenConvolutionRule node inputs = .ok result →
      ∃ i0 i1 attrs,
        inputs.get? 0 = some i0 ∧ inputs.get? 1 = some i1 ∧
        ((isConstant i2 = true ∧ result =
            Expr.call (if b then "nn.conv2d_transpose" else "nn.conv2d")
              [i0, i1] attrs)
         ∨ (isConstant i2 = false ∧ result =
            Expr.call "nn.bias_add"
              [Expr.call (if b then "nn.conv2d_transpose" else "nn.conv2d")
                 [i0, i1] attrs, i2]
              (.biasAdd 1))) := by
  intro node inputs i2 i6 b result h2 h6 hb h
  unfold atenConvolutionRule at h
  rw [(getInput_ok_iff inputs 6 i6).mpr h6, ok_bind] at h
  rw [(liftFatal_ok_iff (relayToConstantBool i6) b).mpr hb, ok_bind] at h
  rw [bind_ok_iff] at h
  obtain ⟨i0, h0, h⟩ := h
  rw [bind_ok_iff] at h
  obtain ⟨i1, h1, h⟩ := h
  rw [bind_ok_iff] at h
  obtain ⟨i8, h8, h⟩ := h
  rw [bind_ok_iff] at h
  obtain ⟨groups, hg, h⟩ := h
  rw [bind_ok_iff] at h
  obtain ⟨kernelSize, hk, h⟩ := h
  rw [bind_ok_iff] at h
  obtain ⟨i3, h3, h⟩ := h
  rw [bind_ok_iff] at h
  obtain ⟨strides, hst, h⟩ := h
  rw [bind_ok_iff] at h
  obtain ⟨i4, h4, h⟩ := h
  rw [bind_ok_iff] at h
  obtain ⟨padding, hpd, h⟩ := h
  rw [bind_ok_iff] at h
  obtain ⟨i5, h5, h⟩ := h
  rw [bind_ok_iff] at h
  obtain ⟨dilation, hdl, h⟩ := h
  rw [bind_ok_iff] at h
  obtain ⟨i2', h2', h⟩ := h
  rw [getInput_ok_iff] at h2'
  rw [h2] at h2'
  injection h2' with h2e
  subst h2e
  refine ⟨i0, i1,
    .conv2d groups "NCHW" "OIHW" kernelSize strides padding dilation,
    by rw [getInput_ok_iff] at h0; exact h0,
    by rw [getInput_ok_iff] at h1; exact h1, ?_⟩
  cases hc : isConstant i2 with
  | true =>
      left
      refine ⟨rfl, ?_⟩
      rw [hc] at h
      simp only [if_true, pure, Except.pure, Except.ok.injEq] at h
      exact h.symm
  | false =>
      right
      refine ⟨rfl, ?_⟩
      rw [hc] at h
      rw [if_neg (by simp)] at h
      simp only [pure, Except.pure, Except.ok.injEq] at h
      exact h.symm

theorem convRule_spec_witness :
    ∃ i0 i1 attrs,
      ([xVar, Expr.var "w" (some [4, 4, 3, 3]), Expr.constant true 1, tup22,
        tupEmpty, tup22, Expr.constant true 0, xVar,
        Expr.constant true 1].get? 0 = some i0) ∧
      ([xVar, Expr.var "w" (some [4, 4, 3, 3]), Expr.constant true 1, tup22,
        tupEmpty, tup22, Expr.constant true 0, xVar,
        Expr.constant true 1].get? 1 = some i1) ∧
      ((isConstant (Expr.constant true 1) = true ∧
          Expr.call "nn.conv2d" [xVar, Expr.var "w" (some [4, 4, 3, 3])]
            (.conv2d 1 "NCHW" "OIHW" (some [3, 3]) [2, 2] [] [2, 2]) =
          Expr.call (if false then "nn.conv2d_transpose" else "nn.conv2d")
            [i0, i1] attrs)
       ∨ (isConstant (Expr.constant true 1) = false ∧
          Expr.call "nn.conv2d" [xVar, Expr.var "w" (some [4, 4, 3, 3])]
            (.conv2d 1 "NCHW" "OIHW" (some [3, 3]) [2, 2] [] [2, 2]) =
          Expr.call "nn.bias_add"
            [Expr.call (if false then "nn.conv2d_transpose" else "nn.conv2d")
               [i0, i1] attrs, Expr.constant true 1]
            (.biasAdd 1))) :=
  convRule_spec ⟨"aten::_convolution", Option.none, 1⟩
    [xVar, .var "w" (some [4, 4, 3, 3]), .constant true 1, tup22,
     tupEmpty, tup22, .constant true 0, xVar, .constant true 1]
    (Expr.constant true 1) (Expr.constant true 0) false
    (Expr.call "nn.conv2d" [xVar, Expr.var "w" (some [4, 4, 3, 3])]
      (.conv2d 1 "NCHW" "OIHW" (some [3, 3]) [2, 2] [] [2, 2]))
    rfl rfl rfl rfl

/-! ### C4 -/

/-- C4 (amended): in the `aten::batch_norm` rule, a none-sentinel scale
(input 1) gives scale flag `false` and a weight equal to the scalar float
constant `1337e10` broadcast via `broadcast_to_like` to the shape of the
*running-mean* input (index 3) — not of the data input — and symmetrically
for the shift (input 2) with the center flag; a real (non-none) scale or
shift is passed through unchanged with its flag set `true`. -/
theorem batchNormRule_placeholder :
    ∀ (node : Node) (inputs : List Expr) (i1 i2 i3 : Expr) (result : Expr),
      inputs.get? 1 = some i1 → inputs.get? 2 = some i2 →
      inputs.get? 3 = some i3 →
      atenBatchNormRule node inputs = .ok result →
      ∃ i0 i4 eps,
        inputs.get? 0 = some i0 ∧ inputs.get? 4 = some i4 ∧
        result = Expr.tupleGetItem
          (Expr.call "nn.batch_norm"
            [i0,
             if relayIsNone i1 then
               Expr.call "broadcast_to_like"
                 [Expr.constant true bits1337e10, i3] .none
             else i1,
             if relayIsNone i2 then
               Expr.call "broadcast_to_like"
                 [Expr.constant true bits1337e10, i3] .none
             else i2,
             i3, i4]
            (.batchNorm eps 1 (!(relayIsNone i1)) (!(relayIsNone i2)))) 0 := by
  intro node inputs i1 i2 i3 result h1 h2 h3 h
  unfold atenBatchNormRule at h
  rw [bind_ok_iff] at h
  obtain ⟨u1, hchk, h⟩ := h
  rw [bind_ok_iff] at h
  obtain ⟨i5, h5, h⟩ := h
  rw [bind_ok_iff] at h
  obtain ⟨training, htr, h⟩ := h
  rw [bind_ok_iff] at h
  obtain ⟨u2, htrchk, h⟩ := h
  rw [bind_ok_iff] at h
  obtain ⟨i7, h7, h⟩ := h
  rw [bind_ok_iff] at h
  obtain ⟨eps, heps, h⟩ := h
  rw [bind_ok_iff] at h
  obtain ⟨i3', h3', h⟩ := h
  rw [getInput_ok_iff, h3] at h3'
  injection h3' with h3e
  subst h3e
  rw [bind_ok_iff] at h
  obtain ⟨i1', h1', h⟩ := h
  rw [getInput_ok_iff, h1] at h1'
  injection h1' with h1e
  subst h1e
  rw [bind_ok_iff] at h
  obtain ⟨i2', h2', h⟩ := h
  rw [getInput_ok_iff, h2] at h2'
  injection h2' with h2e
  subst h2e
  rw [bind_ok_iff] at h
  obtain ⟨i0, h0, h⟩ := h
  rw [bind_ok_iff] at h
  obtain ⟨i4, h4, h⟩ := h
  rw [bind_ok_iff] at h
  obtain ⟨u3, hassert, h⟩ := h
  rw [internalAssert_ok_iff, decide_eq_true_eq] at hassert
  rw [if_neg (by omega)] at h
  simp only [pure, Except.pure, Except.ok.injEq] at h
  rw [getInput_ok_iff] at h0 h4
  exact ⟨i0, i4, eps, h0, h4, h.symm⟩

theorem batchNormRule_placeholder_witness :
    ∃ i0 i4 eps,
      bnInputsC.get? 0 = some i0 ∧ bnInputsC.get? 4 = some i4 ∧
      bnResultC = Expr.tupleGetItem
        (Expr.call "nn.batch_norm"
          [i0,
           if relayIsNone noneConst then
             Expr.call "broadcast_to_like"
               [Expr.constant true bits1337e10,
                Expr.var "running_mean" Option.none] .none
           else noneConst,
           if relayIsNone noneConst then
             Expr.call "broadcast_to_like"
               [Expr.constant true bits1337e10,
                Expr.var "running_mean" Option.none] .none
           else noneConst,
           Expr.var "running_mean" Option.none, i4]
          (.batchNorm eps 1 (!(relayIsNone noneConst))
            (!(relayIsNone noneConst)))) 0 :=
  batchNormRule_placeholder bnNodeC bnInputsC noneConst noneConst
    (Expr.var "running_mean" Option.none) bnResultC rfl rfl rfl rfl

/-- C4 counterexample: at a concrete batch-norm node whose data input is
the variable `x` and whose running-mean input is the variable
`running_mean`, the emitted placeholder weight is the `1337e10` constant
broadcast to `running_mean` (input index 3) — not to the data input `x` as
the claim states. -/
theorem batchNormRule_broadcast_cex :
    atenBatchNormRule bnNodeC bnInputsC = .ok bnResultC ∧
    bnInputsC.get? 0 = some (Expr.var "x" Option.none) ∧
    bnWeightArg bnResultC =
      some (Expr.call "broadcast_to_like"
        [Expr.constant true bits1337e10,
         Expr.var "running_mean" Option.none] .none) ∧
    bnWeightArg bnResultC ≠
      some (Expr.call "broadcast_to_like"
        [Expr.constant true bits1337e10, Expr.var "x" Option.none] .none) := by
  refine ⟨rfl, rfl, rfl, ?_⟩
  intro hcontra
  simp [bnWeightArg, bnResultC] at hcontra

theorem error_bind {α β : Type} (e : TransErr) (f : α → Except TransErr β) :
    (Except.error e >>= f : Except TransErr β) = .error e := rfl

/-! ### C8 -/

/-- C8: `aten::threshold_` translation succeeds exactly when none of the
three inputs is the none sentinel and both the threshold and the
replacement-value scalar constants lie strictly within `(-1e-7, 1e-7)`;
on success it emits `nn.relu` of the first input; threshold `0.5` is
rejected with a reported, non-fatal error. -/
theorem thresholdRule_spec :
    ∀ (node : Node) (i0 i1 i2 : Expr),
      ((∃ r, atenThresholdRule node [i0, i1, i2] = .ok r) ↔
        (relayIsNone i0 = false ∧ relayIsNone i1 = false ∧
         relayIsNone i2 = false ∧
         (∃ q1, relayToConstantFloat i1 = some (.finite q1) ∧
           -(1 / 10 ^ 7) < q1 ∧ q1 < 1 / 10 ^ 7) ∧
         (∃ q2, relayToConstantFloat i2 = some (.finite q2) ∧
           -(1 / 10 ^ 7) < q2 ∧ q2 < 1 / 10 ^ 7)))
      ∧ (∀ r, atenThresholdRule node [i0, i1, i2] = .ok r →
          r = .call "nn.relu" [i0] .none)
      ∧ atenThresholdRule node
          [Expr.var "x" Option.none, Expr.constant true 0x3F000000,
           Expr.constant true 0] = .error .reported := by
  intro node i0 i1 i2
  have decomp : ∀ r, atenThresholdRule node [i0, i1, i2] = .ok r →
      relayIsNone i0 = false ∧ relayIsNone i1 = false ∧
      relayIsNone i2 = false ∧
      (∃ d1, relayToConstantFloat i1 = some d1 ∧
        f32ltQ d1 thresholdTol = true ∧ f32gtQ d1 (-thresholdTol) = true) ∧
      (∃ d2, relayToConstantFloat i2 = some d2 ∧
        f32ltQ d2 thresholdTol = true ∧ f32gtQ d2 (-thresholdTol) = true) ∧
      r = .call "nn.relu" [i0] .none := by
    intro r h
    unfold atenThresholdRule at h
    rw [show getInput [i0, i1, i2] 0 = Except.ok i0 from rfl, ok_bind] at h
    rw [bind_ok_iff] at h
    obtain ⟨u0, hc0, h⟩ := h
    rw [torchCheck_ok_iff, Bool.not_eq_true'] at hc0
    rw [show getInput [i0, i1, i2] 1 = Except.ok i1 from rfl, ok_bind] at h
    rw [bind_ok_iff] at h
    obtain ⟨u1, hc1, h⟩ := h
    rw [torchCheck_ok_iff, Bool.not_eq_true'] at hc1
    rw [show getInput [i0, i1, i2] 2 = Except.ok i2 from rfl, ok_bind] at h
    rw [bind_ok_iff] at h
    obtain ⟨u2, hc2, h⟩ := h
    rw [torchCheck_ok_iff, Bool.not_eq_true'] at hc2
    rw [bind_ok_iff] at h
    obtain ⟨d1, hd1, h⟩ := h
    rw [liftFatal_ok_iff] at hd1
    rw [bind_ok_iff] at h
    obtain ⟨u3, hlt1, h⟩ := h
    rw [torchCheck_ok_iff] at hlt1
    rw [bind_ok_iff] at h
    obtain ⟨u4, hgt1, h⟩ := h
    rw [torchCheck_ok_iff] at hgt1
    rw [bind_ok_iff] at h
    obtain ⟨d2, hd2, h⟩ := h
    rw [liftFatal_ok_iff] at hd2
    rw [bind_ok_iff] at h
    obtain ⟨u5, hlt2, h⟩ := h
    rw [torchCheck_ok_iff] at hlt2
    rw [bind_ok_iff] at h
    obtain ⟨u6, hgt2, h⟩ := h
    rw [torchCheck_ok_iff] at hgt2
    simp only [pure, Except.pure, Except.ok.injEq] at h
    exact ⟨hc0, hc1, hc2, ⟨d1, hd1, hlt1, hgt1⟩, ⟨d2, hd2, hlt2, hgt2⟩,
      h.symm⟩
  have toBounds : ∀ d : F32Val,
      f32ltQ d thresholdTol = true → f32gtQ d (-thresholdTol) = true →
      ∃ q, d = .finite q ∧ -(1 / 10 ^ 7) < q ∧ q < 1 / 10 ^ 7 := by
    intro d hlt hgt
    cases d with
    | finite q =>
        rw [f32ltQ, decide_eq_true_eq, thresholdTol_eq] at hlt
        rw [f32gtQ, decide_eq_true_eq, thresholdTol_eq] at hgt
        exact ⟨q, rfl, hgt, hlt⟩
    | inf neg =>
        rw [f32ltQ] at hlt
        rw [f32gtQ] at hgt
        rw [hlt] at hgt
        cases hgt
    | nan => cases hlt
  refine ⟨⟨?_, ?_⟩, ?_, rfl⟩
  · rintro ⟨r, h⟩
    obtain ⟨hc0, hc1, hc2, ⟨d1, hd1, hlt1, hgt1⟩, ⟨d2, hd2, hlt2, hgt2⟩, _⟩ :=
      decomp r h
    obtain ⟨q1, rfl, hq1a, hq1b⟩ := toBounds d1 hlt1 hgt1
    obtain ⟨q2, rfl, hq2a, hq2b⟩ := toBounds d2 hlt2 hgt2
    exact ⟨hc0, hc1, hc2, ⟨q1, hd1, hq1a, hq1b⟩, ⟨q2, hd2, hq2a, hq2b⟩⟩
  · rintro ⟨hc0, hc1, hc2, ⟨q1, hd1, hq1a, hq1b⟩, ⟨q2, hd2, hq2a, hq2b⟩⟩
    refine ⟨.call "nn.relu" [i0] .none, ?_⟩
    unfold atenThresholdRule
    rw [show getInput [i0, i1, i2] 0 = Except.ok i0 from rfl, ok_bind]
    rw [show (!relayIsNone i0) = true from by rw [hc0]; rfl]
    rw [show torchCheck true = Except.ok () from rfl, ok_bind]
    rw [show getInput [i0, i1, i2] 1 = Except.ok i1 from rfl, ok_bind]
    rw [show (!relayIsNone i1) = true from by rw [hc1]; rfl]
    rw [show torchCheck true = Except.ok () from rfl, ok_bind]
    rw [show getInput [i0, i1, i2] 2 = Except.ok i2 from rfl, ok_bind]
    rw [show (!relayIsNone i2) = true from by rw [hc2]; rfl]
    rw [show torchCheck true = Except.ok () from rfl, ok_bind]
    rw [(liftFatal_ok_iff (relayToConstantFloat i1) _).mpr hd1, ok_bind]
    rw [show f32ltQ (.finite q1) thresholdTol = true from by
      rw [f32ltQ, thresholdTol_eq]; exact decide_eq_true hq1b]
    rw [show torchCheck true = Except.ok () from rfl, ok_bind]
    rw [show f32gtQ (.finite q1) (-thresholdTol) = true from by
      rw [f32gtQ, thresholdTol_eq]; exact decide_eq_true hq1a]
    rw [show torchCheck true = Except.ok () from rfl, ok_bind]
    rw [(liftFatal_ok_iff (relayToConstantFloat i2) _).mpr hd2, ok_bind]
    rw [show f32ltQ (.finite q2) thresholdTol = true from by
      rw [f32ltQ, thresholdTol_eq]; exact decide_eq_true hq2b]
    rw [show torchCheck true = Except.ok () from rfl, ok_bind]
    rw [show f32gtQ (.finite q2) (-thresholdTol) = true from by
      rw [f32gtQ, thresholdTol_eq]; exact decide_eq_true hq2a]
    rw [show torchCheck true = Except.ok () from rfl, ok_bind]
    rfl
  · intro r h
    exact (decomp r h).2.2.2.2.2

theorem thresholdRule_spec_witness :
    ∃ r, atenThresholdRule ⟨"aten::threshold_", Option.none, 1⟩
      [xVar, Expr.constant true 0, Expr.constant true 0] = .ok r :=
  (thresholdRule_spec ⟨"aten::threshold_", Option.none, 1⟩ xVar
    (Expr.constant true 0) (Expr.constant true 0)).1.mpr
    ⟨rfl, rfl, rfl,
     ⟨0, rfl, by norm_num, by norm_num⟩,
     ⟨0, rfl, by norm_num, by norm_num⟩⟩

/-! ### C9 -/

/-- C9: the `aten::batch_norm` rule fails (reported) when the training
flag (input 5) decodes to true; every successful translation comes from a
node with exactly one output (the output-count fatal assertion) and
returns the index-0 tuple projection of the `nn.batch_norm` call, so the
branch returning the raw tuple for a two-output node is unreachable; a
two-output node fails fatally. -/
theorem batchNormRule_training_outputs :
    (∀ (node : Node) (inputs : List Expr) (i5 : Expr),
      inputs.length = 9 → inputs.get? 5 = some i5 →
      relayToConstantBool i5 = some true →
      atenBatchNormRule node inputs = .error .reported)
    ∧ (∀ (node : Node) (inputs : List Expr) (result : Expr),
        atenBatchNormRule node inputs = .ok result →
        node.outputsCount = 1 ∧
        ∃ args attrs, result = Expr.tupleGetItem
          (Expr.call "nn.batch_norm" args attrs) 0)
    ∧ atenBatchNormRule ⟨"aten::batch_norm", Option.none, 2⟩ bnInputsC =
        .error .fatal := by
  refine ⟨?_, ?_, rfl⟩
  · intro node inputs i5 hlen h5 hb
    unfold atenBatchNormRule
    rw [show (decide (inputs.length = 9)) = true from by simp [hlen]]
    rw [show torchCheck true = Except.ok () from rfl, ok_bind]
    rw [(getInput_ok_iff inputs 5 i5).mpr h5, ok_bind]
    rw [(liftFatal_ok_iff (relayToConstantBool i5) true).mpr hb, ok_bind]
    rfl
  · intro node inputs result h
    unfold atenBatchNormRule at h
    rw [bind_ok_iff] at h
    obtain ⟨u1, hchk, h⟩ := h
    rw [bind_ok_iff] at h
    obtain ⟨i5, h5, h⟩ := h
    rw [bind_ok_iff] at h
    obtain ⟨training, htr, h⟩ := h
    rw [bind_ok_iff] at h
    obtain ⟨u2, htrchk, h⟩ := h
    rw [bind_ok_iff] at h
    obtain ⟨i7, h7, h⟩ := h
    rw [bind_ok_iff] at h
    obtain ⟨eps, heps, h⟩ := h
    rw [bind_ok_iff] at h
    obtain ⟨i3, h3, h⟩ := h
    rw [bind_ok_iff] at h
    obtain ⟨i1, h1, h⟩ := h
    rw [bind_ok_iff] at h
    obtain ⟨i2, h2, h⟩ := h
    rw [bind_ok_iff] at h
    obtain ⟨i0, h0, h⟩ := h
    rw [bind_ok_iff] at h
    obtain ⟨i4, h4, h⟩ := h
    rw [bind_ok_iff] at h
    obtain ⟨u3, hassert, h⟩ := h
    rw [internalAssert_ok_iff, decide_eq_true_eq] at hassert
    rw [if_neg (by omega)] at h
    simp only [pure, Except.pure, Except.ok.injEq] at h
    exact ⟨hassert, _, _, h.symm⟩

theorem batchNormRule_training_outputs_witness :
    atenBatchNormRule ⟨"aten::batch_norm", Option.none, 1⟩
      [xVar, noneConst, noneConst, .var "m" Option.none,
       .var "v" Option.none, .constant true 1, .var "mom" Option.none,
       .constant true 0, .var "c" Option.none] = .error .reported :=
  batchNormRule_training_outputs.1 ⟨"aten::batch_norm", Option.none, 1⟩
    [xVar, noneConst, noneConst, .var "m" Option.none,
     .var "v" Option.none, .constant true 1, .var "mom" Option.none,
     .constant true 0, .var "c" Option.none]
    (.constant true 1) rfl rfl rfl
